import Mathlib

/-!
# pulsar-proxy-go: connection routing and the per-client broker-session registry

A shallow embedding of `pkg/proxy/proxy.go`.  Go code is stateful, may panic and may
block on a lock, so every operation is a function from the state before the call to
an `Outcome` together with the state after it.

* Go `string` is `String`; `len(s)` is the UTF-8 byte length.
* Go `error` is `Option String` (`none` is `nil`).
* A Go pointer that may be `nil` is an `Option`.
* Go `int` is an `Int`; its width is the platform parameter `intSize` (32 or 64).
-/

namespace PulsarProxy

/-! ## Go runtime outcomes -/

/-- Run-time panics the Go runtime can raise in the modelled code. -/
inductive GoPanic where
  /-- Slice index `index` used on a slice of length `length`. -/
  | indexOutOfRange (index length : Nat)
  /-- The statement `m[k] = v` executed on a nil map. -/
  | assignNilMap
  /-- A nil pointer was dereferenced (inside an external collaborator). -/
  | nilDereference
  deriving DecidableEq, Repr

/-- How a call ends: it returns a value, it panics, or it waits for ever on a lock
(or on the network). -/
inductive Outcome (α : Type) where
  | ret (a : α)
  | panic (e : GoPanic)
  | blocked
  deriving DecidableEq, Repr

/-! ## Standard library: `strings.Split` and `strconv.Atoi`

Both belong to the Go standard library, not to the repository; they are written after
`strings/strings.go` and `strconv/atoi.go`.  A Go string is a byte sequence; here it is a
sequence of characters, which for the ASCII bytes these functions look for (`:`, `+`, `-`,
`0` to `9`) gives the same result on every valid UTF-8 string. -/

namespace strings

/-- Go `strings.Split(s, sep)` for a one-byte separator: all substrings of `s` between the
occurrences of `sep`; the result always has one element more than `sep` occurs in `s`. -/
def Split (s : String) (sep : Char) : List String :=
  (s.data.splitOn sep).map String.mk

end strings

namespace strconv

/-- The `Err` field of a `*strconv.NumError`. -/
inductive NumError where
  | ErrSyntax
  | ErrRange
  deriving DecidableEq, Repr

/-- Value of an ASCII decimal digit (`ch - '0'` when that is at most 9). -/
def digitVal (c : Char) : Option Nat :=
  if 48 ≤ c.toNat ∧ c.toNat ≤ 57 then some (c.toNat - 48) else none

/-- Loop of the fast path of `Atoi`: `n = n*10 + int(ch)` per byte, a syntax error
(`none`) at the first byte that is no digit.  The fast path runs on fewer than 19 bytes
(10 when `int` has 32 bits), so `n` stays below `10^18` (`10^9`) and never wraps. -/
def fastLoop : List Char → Nat → Option Nat
  | [], n => some n
  | ch :: rest, n =>
    match digitVal ch with
    | none => none
    | some d => fastLoop rest (n * 10 + d)

/-- Largest `uint64`. -/
def maxUint64 : Nat := 2 ^ 64 - 1

/-- Loop of `ParseUint(s, 10, bitSize)` over the bytes of `s`, with accumulator `n`:
a byte that is no decimal digit is a syntax error with value 0; when `n*10` or `n*10 + d`
leaves `uint64`, or the sum exceeds `maxVal`, the result is `maxVal` with a range error,
and the remaining bytes are not looked at. -/
def parseUintLoop (maxVal : Nat) : List Char → Nat → Nat × Option NumError
  | [], n => (n, none)
  | c :: rest, n =>
    match digitVal c with
    | none => (0, some .ErrSyntax)
    | some d =>
      if n ≥ maxUint64 / 10 + 1 then (maxVal, some .ErrRange)
      else
        let n10 := n * 10
        let n1 := (n10 + d) % 2 ^ 64
        if n1 < n10 ∨ n1 > maxVal then (maxVal, some .ErrRange)
        else parseUintLoop maxVal rest n1

/-- Go `strconv.ParseUint(s, 10, bitSize)` with `bitSize` already replaced by the width
of `int` when it was 0. -/
def ParseUint (s : List Char) (bitSize : Nat) : Nat × Option NumError :=
  if s = [] then (0, some .ErrSyntax)
  else parseUintLoop (2 ^ bitSize - 1) s 0

/-- Go `strconv.ParseInt(s, 10, 0)` on a platform whose `int` has `intSize` bits. -/
def ParseInt (intSize : Nat) (s : List Char) : Int × Option NumError :=
  match s with
  | [] => (0, some .ErrSyntax)
  | c0 :: tl =>
    let neg := c0 = '-'
    let body := if c0 = '+' ∨ c0 = '-' then tl else s
    match ParseUint body intSize with
    | (_, some .ErrSyntax) => (0, some .ErrSyntax)
    | (un, _) =>
      let cutoff := 2 ^ (intSize - 1)
      if ¬ neg ∧ un ≥ cutoff then ((cutoff : Nat) - 1, some .ErrRange)
      else if neg ∧ un > cutoff then (-(cutoff : Nat), some .ErrRange)
      else (if neg then -(un : Int) else (un : Int), none)

/-- Go `strconv.Atoi(s)` on a platform whose `int` has `intSize` bits: the parsed value
and the error.  Short inputs take the fast path, all others go through `ParseInt`, whose
result lies in the range of `int`, so that the conversion `int(i64)` changes nothing. -/
def Atoi (intSize : Nat) (s : String) : Int × Option NumError :=
  let sLen := s.utf8ByteSize
  if (intSize = 32 ∧ 0 < sLen ∧ sLen < 10) ∨ (intSize = 64 ∧ 0 < sLen ∧ sLen < 19) then
    match s.data with
    | [] => (0, some .ErrSyntax)
    | c0 :: tl =>
      let signed := c0 = '-' ∨ c0 = '+'
      let body := if signed then tl else c0 :: tl
      if signed ∧ body.length < 1 then (0, some .ErrSyntax)
      else
        match fastLoop body 0 with
        | none => (0, some .ErrSyntax)
        | some n => (if c0 = '-' then -(n : Int) else (n : Int), none)
  else ParseInt intSize s.data

end strconv

/-! ## External collaborators: `pb`, `net`, `pnet`, `sync`

Types of other packages, reduced to what `proxy.go` uses of them. -/

namespace pb

/-- The handshake message `pb.CommandConnect`: the optional broker URL the router looks
at, and the other fields of the message, which the proxy never inspects. -/
structure CommandConnect where
  ProxyToBrokerUrl : Option String
  others : String
  deriving DecidableEq, Repr

/-- The broker reply `pb.CommandConnected`, uninterpreted. -/
structure CommandConnected where
  others : String
  deriving DecidableEq, Repr

end pb

namespace net

/-- An open inbound connection `net.Conn`; `RemoteAddr` is `conn.RemoteAddr().String()`. -/
structure Conn where
  RemoteAddr : String
  deriving DecidableEq, Repr

end net

namespace pnet

/-- The struct `pnet.PulsarNetClientConfig`, as filled in by `buildRpcClient`. -/
structure PulsarNetClientConfig where
  Host : String
  Port : Int
  BufferMax : Int
  SendQueueSize : Int
  PendingQueueSize : Int
  deriving DecidableEq, Repr

/-- The struct `pnet.PulsarNetServerConfig`, as filled in by `NewProxyServer`. -/
structure PulsarNetServerConfig where
  Host : String
  Port : Int
  BufferMax : Int
  deriving DecidableEq, Repr

/-- An outbound session `pnet.PulsarNetClient`.  Two pointers are equal exactly when the
`id` is the same; `config` is what the client was constructed with. -/
structure PulsarNetClient where
  id : Nat
  config : PulsarNetClientConfig
  deriving DecidableEq, Repr

/-- The inbound server `pnet.PulsarNetServer`, remembered by the configuration it was
constructed with. -/
structure PulsarNetServer where
  config : PulsarNetServerConfig
  deriving DecidableEq, Repr

end pnet

namespace sync

/-- State of a `sync.RWMutex`: whether a writer holds it and how many readers do. -/
structure RWMutex where
  writer : Bool
  readers : Nat
  deriving DecidableEq, Repr

namespace RWMutex

/-- `RLock`: `none` when the caller has to wait (a writer holds the lock). -/
def RLock (m : RWMutex) : Option RWMutex :=
  if m.writer then none else some { m with readers := m.readers + 1 }

/-- `RUnlock`, called by a goroutine that holds a read lock. -/
def RUnlock (m : RWMutex) : RWMutex :=
  { m with readers := m.readers - 1 }

/-- `Lock`: `none` when the caller has to wait (a writer or a reader holds the lock). -/
def Lock (m : RWMutex) : Option RWMutex :=
  if m.writer ∨ 0 < m.readers then none else some { m with writer := true }

/-- `Unlock`, called by the goroutine that holds the write lock. -/
def Unlock (m : RWMutex) : RWMutex :=
  { m with writer := false }

end RWMutex

end sync

/-! ## The environment and the observable world -/

/-- What the code cannot decide by itself: the platform and the behaviour of the network
at the time of one call. -/
structure Env where
  /-- Number of bits of Go `int` (`strconv.IntSize`). -/
  intSize : Nat
  /-- The error `pnet.NewPulsarNetClient` returns for a configuration; `none`: the broker is
  reachable. -/
  dialError : pnet.PulsarNetClientConfig → Option String
  /-- The error `pnet.NewPulsarNetServer` returns for a configuration. -/
  listenError : pnet.PulsarNetServerConfig → Option String
  /-- The method `(*pnet.PulsarNetClient).CommandConnect`, called on a possibly nil
  receiver: the reply and error it returns, unless it panics or never returns. -/
  forward : Option pnet.PulsarNetClient → pb.CommandConnect →
    Outcome (Option pb.CommandConnected × Option String)

/-- What an observer of the process sees. -/
structure World where
  /-- Number of outbound clients allocated so far; the next one gets this `id`. -/
  nextClient : Nat
  /-- Every call of `pnet.NewPulsarNetClient`, oldest first: the identity on whose behalf
  `buildRpcClient` made it, and the configuration passed. -/
  dials : List (String × pnet.PulsarNetClientConfig)
  /-- Every call of the session method `CommandConnect`, oldest first: the receiver and the
  message passed. -/
  forwards : List (Option pnet.PulsarNetClient × pb.CommandConnect)
  /-- Lines written through `logrus.Errorf`, oldest first. -/
  logs : List String
  deriving DecidableEq, Repr

/-- The call `logrus.Errorf(line)`. -/
def World.errorf (w : World) (line : String) : World :=
  { w with logs := w.logs ++ [line] }

namespace pnet

/-- The constructor `pnet.NewPulsarNetClient(config)`, called for identity `addr`: it is
recorded in `dials`; when the dial fails it returns `(nil, err)`, otherwise a pointer to a
newly allocated client and a nil error. -/
def NewPulsarNetClient (env : Env) (w : World) (addr : String) (config : PulsarNetClientConfig) :
    (Option PulsarNetClient × Option String) × World :=
  let w1 := { w with dials := w.dials ++ [(addr, config)] }
  match env.dialError config with
  | some e => ((none, some e), w1)
  | none => ((some ⟨w.nextClient, config⟩, none), { w1 with nextClient := w.nextClient + 1 })

/-- The constructor `pnet.NewPulsarNetServer(config, handler)`. -/
def NewPulsarNetServer (env : Env) (config : PulsarNetServerConfig) :
    Option PulsarNetServer × Option String :=
  match env.listenError config with
  | some e => (none, some e)
  | none => (some ⟨config⟩, none)

end pnet

/-! ## `pkg/proxy/proxy.go` -/

/-- The struct `Config`. -/
structure Config where
  Host : String
  Port : Int
  ProxyVersion : String
  ProxyProtocolVersion : Int
  ProxyMaxMessageSize : Int
  deriving DecidableEq, Repr

/-- The zero value of `Config`. -/
def Config.zero : Config := ⟨"", 0, "", 0, 0⟩

/-- A value of the empty interface `Server`. -/
structure Server where
  id : Nat
  deriving DecidableEq, Repr

/-- A Go `map[string]*pnet.PulsarNetClient`: `none` is the nil map, otherwise the entries
(one per key, in no meaningful order). -/
abbrev ClientMap := Option (List (String × Option pnet.PulsarNetClient))

/-- The two-result map read `v, exist := m[k]`; a nil map reads as empty. -/
def ClientMap.index (m : ClientMap) (k : String) : Option pnet.PulsarNetClient × Bool :=
  match m with
  | none => (none, false)
  | some entries =>
    match entries.lookup k with
    | none => (none, false)
    | some v => (v, true)

/-- Entries after `m[k] = v` on a non-nil map: the value of an existing key is replaced,
a new key is added. -/
def assignEntries (k : String) (v : Option pnet.PulsarNetClient) :
    List (String × Option pnet.PulsarNetClient) → List (String × Option pnet.PulsarNetClient)
  | [] => [(k, v)]
  | (k1, v1) :: rest => if k1 = k then (k, v) :: rest else (k1, v1) :: assignEntries k v rest

/-- The statement `m[k] = v`; `none` when `m` is the nil map (the runtime panics). -/
def ClientMap.assign (m : ClientMap) (k : String) (v : Option pnet.PulsarNetClient) :
    Option ClientMap :=
  match m with
  | none => none
  | some entries => some (some (assignEntries k v entries))

/-- The struct `ProxyServer`. -/
structure ProxyServer where
  config : Config
  clientManager : ClientMap
  clientLock : sync.RWMutex
  netServer : Option pnet.PulsarNetServer
  server : Option Server
  deriving DecidableEq, Repr

/-- The value `ProxyServer{}`: every field zero. -/
def ProxyServer.zero : ProxyServer :=
  { config := Config.zero, clientManager := none, clientLock := ⟨false, 0⟩,
    netServer := none, server := none }

namespace ProxyServer

/-- The method `getRpcClient(addr)`: the client and error returned, and the server after
the call. -/
def getRpcClient (p : ProxyServer) (addr : String) :
    Outcome (Option pnet.PulsarNetClient × Option String) × ProxyServer :=
  match p.clientLock.RLock with
  | none => (.blocked, p)
  | some l1 =>
    let (client, exist) := p.clientManager.index addr
    let p1 := { p with clientLock := l1.RUnlock }
    if ¬ exist then (.ret (none, some "rpc client is not exist"), p1)
    else (.ret (client, none), p1)

/-- The method `buildRpcClient(addr, brokerUrl)`. -/
def buildRpcClient (env : Env) (p : ProxyServer) (w : World) (addr brokerUrl : String) :
    Outcome Unit × ProxyServer × World :=
  match p.clientLock.RLock with
  | none => (.blocked, p, w)
  | some l1 =>
    let exist := (p.clientManager.index addr).2
    let p1 := { p with clientLock := l1.RUnlock }
    if ¬ exist then
      match p1.clientLock.Lock with
      | none => (.blocked, p1, w)
      | some l2 =>
        let p2 := { p1 with clientLock := l2 }
        let split := strings.Split brokerUrl ':'
        match split[0]? with
        | none => (.panic (.indexOutOfRange 0 split.length), p2, w)
        | some host =>
          match split[1]? with
          | none => (.panic (.indexOutOfRange 1 split.length), p2, w)
          | some portText =>
            let port := (strconv.Atoi env.intSize portText).1
            let made := pnet.NewPulsarNetClient env w addr
              { Host := host, Port := port, BufferMax := p2.config.ProxyMaxMessageSize,
                SendQueueSize := 1024, PendingQueueSize := 1024 }
            let client := made.1.1
            let w1 :=
              match made.1.2 with
              | some e => made.2.errorf ("build rpc client failed, cause: " ++ e)
              | none => made.2
            match p2.clientManager.assign addr client with
            | none => (.panic .assignNilMap, p2, w1)
            | some m => (.ret (), { p2 with clientManager := m, clientLock := l2.Unlock }, w1)
    else (.ret (), p1, w)

/-- The method `CommandConnect(conn, connect)`: the reply and error returned, the server
and the world after the call. -/
def CommandConnect (env : Env) (p : ProxyServer) (w : World) (conn : net.Conn)
    (connect : pb.CommandConnect) :
    Outcome (Option pb.CommandConnected × Option String) × ProxyServer × World :=
  match connect.ProxyToBrokerUrl with
  | none =>
    (.ret (none, some "proxy to broker url is nil"), p, w.errorf "proxy to broker url is nil")
  | some brokerUrl =>
    let addr := conn.RemoteAddr
    match buildRpcClient env p w addr brokerUrl with
    | (.panic e, p1, w1) => (.panic e, p1, w1)
    | (.blocked, p1, w1) => (.blocked, p1, w1)
    | (.ret _, p1, w1) =>
      match getRpcClient p1 addr with
      | (.panic e, p2) => (.panic e, p2, w1)
      | (.blocked, p2) => (.blocked, p2, w1)
      | (.ret (client, _), p2) =>
        let w2 := { w1 with forwards := w1.forwards ++ [(client, connect)] }
        match env.forward client connect with
        | .panic e => (.panic e, p2, w2)
        | .blocked => (.blocked, p2, w2)
        | .ret (resp, err) =>
          match err with
          | some e => (.ret (resp, err), p2, w2.errorf ("send msg to broker failed, cause: " ++ e))
          | none => (.ret (resp, err), p2, w2)

end ProxyServer

/-- The function `NewProxyServer(config, server)`: the server and the error returned. -/
def NewProxyServer (env : Env) (config : Config) (server : Server) :
    Option ProxyServer × Option String :=
  let p := ProxyServer.zero
  let made := pnet.NewPulsarNetServer env
    { Host := config.Host, Port := config.Port, BufferMax := config.ProxyMaxMessageSize }
  match made.2 with
  | some e => (none, some e)
  | none => (some { p with netServer := made.1, server := some server }, none)

/-- A sequential run of handshakes: each one is handled after the previous call has ended
(returned, panicked and been recovered by the caller, or got stuck), on the state that call
left behind. -/
structure Handshake where
  env : Env
  conn : net.Conn
  connect : pb.CommandConnect

/-- State after handling the handshakes of a run one after the other. -/
def runHandshakes (p : ProxyServer) (w : World) : List Handshake → ProxyServer × World
  | [] => (p, w)
  | h :: rest =>
    let r := ProxyServer.CommandConnect h.env p w h.conn h.connect
    runHandshakes r.2.1 r.2.2 rest

/-- Number of outbound sessions constructed on behalf of identity `addr` so far. -/
def World.dialsFor (w : World) (addr : String) : Nat :=
  (w.dials.filter (fun d => d.1 = addr)).length

/-! ## Goroutines interleaving inside `buildRpcClient` -/

/-- The statement a goroutine inside `buildRpcClient(addr, brokerUrl)` executes next, with
the local variables that are live there. -/
inductive Pc where
  /-- `p.clientLock.RLock()` -/
  | atRLock
  /-- `_, exist := p.clientManager[addr]` -/
  | atRead
  /-- `p.clientLock.RUnlock()` -/
  | atRUnlock (exist : Bool)
  /-- `if !exist` -/
  | atTest (exist : Bool)
  /-- `p.clientLock.Lock()` -/
  | atLock
  /-- `split := ...; host := split[0]; port, _ := strconv.Atoi(split[1])` -/
  | atSplit
  /-- `client, err := pnet.NewPulsarNetClient(...)` and the `if err != nil` after it -/
  | atDial (host : String) (port : Int)
  /-- `p.clientManager[addr] = client` -/
  | atAssign (client : Option pnet.PulsarNetClient)
  /-- `p.clientLock.Unlock()` -/
  | atUnlock
  /-- The method has returned. -/
  | done
  /-- The goroutine has panicked. -/
  | panicked (e : GoPanic)
  deriving DecidableEq, Repr

/-- A goroutine executing `buildRpcClient(addr, brokerUrl)`. -/
structure Goroutine where
  addr : String
  brokerUrl : String
  pc : Pc
  deriving DecidableEq, Repr

/-- One statement of goroutine `g` on the shared server; `none` when `g` cannot move (it
waits for the lock, or it has ended). -/
def Goroutine.step (env : Env) (p : ProxyServer) (w : World) (g : Goroutine) :
    Option (ProxyServer × World × Goroutine) :=
  match g.pc with
  | .atRLock =>
    match p.clientLock.RLock with
    | none => none
    | some l => some ({ p with clientLock := l }, w, { g with pc := .atRead })
  | .atRead => some (p, w, { g with pc := .atRUnlock (p.clientManager.index g.addr).2 })
  | .atRUnlock exist =>
    some ({ p with clientLock := p.clientLock.RUnlock }, w, { g with pc := .atTest exist })
  | .atTest exist => some (p, w, { g with pc := if ¬ exist then .atLock else .done })
  | .atLock =>
    match p.clientLock.Lock with
    | none => none
    | some l => some ({ p with clientLock := l }, w, { g with pc := .atSplit })
  | .atSplit =>
    let split := strings.Split g.brokerUrl ':'
    match split[0]? with
    | none => some (p, w, { g with pc := .panicked (.indexOutOfRange 0 split.length) })
    | some host =>
      match split[1]? with
      | none => some (p, w, { g with pc := .panicked (.indexOutOfRange 1 split.length) })
      | some portText =>
        some (p, w, { g with pc := .atDial host (strconv.Atoi env.intSize portText).1 })
  | .atDial host port =>
    let made := pnet.NewPulsarNetClient env w g.addr
      { Host := host, Port := port, BufferMax := p.config.ProxyMaxMessageSize,
        SendQueueSize := 1024, PendingQueueSize := 1024 }
    let w1 :=
      match made.1.2 with
      | some e => made.2.errorf ("build rpc client failed, cause: " ++ e)
      | none => made.2
    some (p, w1, { g with pc := .atAssign made.1.1 })
  | .atAssign client =>
    match p.clientManager.assign g.addr client with
    | none => some (p, w, { g with pc := .panicked .assignNilMap })
    | some m => some ({ p with clientManager := m }, w, { g with pc := .atUnlock })
  | .atUnlock => some ({ p with clientLock := p.clientLock.Unlock }, w, { g with pc := .done })
  | .done => none
  | .panicked _ => none

/-- The shared server, the world and the goroutines running on it. -/
structure System where
  server : ProxyServer
  world : World
  goroutines : List Goroutine
  deriving DecidableEq, Repr

/-- The scheduler lets goroutine number `i` execute one statement. -/
def System.step (env : Env) (s : System) (i : Nat) : Option System :=
  match s.goroutines[i]? with
  | none => none
  | some g =>
    match g.step env s.server s.world with
    | none => none
    | some (p, w, g1) => some ⟨p, w, s.goroutines.set i g1⟩

/-- The system after a schedule (the goroutine to move at each step); `none` when the
schedule asks a goroutine to move that cannot. -/
def System.run (env : Env) (s : System) : List Nat → Option System
  | [] => some s
  | i :: rest =>
    match s.step env i with
    | none => none
    | some s1 => System.run env s1 rest

/-! ## Concrete servers, networks and handshakes -/

/-- A 64-bit platform on which every broker is reachable and answers a handshake with the
reply `connected`; a call on a nil session dereferences nil. -/
def reachableEnv : Env :=
  { intSize := 64
    dialError := fun _ => none
    listenError := fun _ => none
    forward := fun client _ =>
      match client with
      | none => .panic .nilDereference
      | some _ => .ret (some ⟨"connected"⟩, none) }

/-- The same platform while no broker accepts connections. -/
def unreachableEnv : Env :=
  { reachableEnv with dialError := fun _ => some "connection refused" }

/-- Brokers that accept connections and then fail the handshake. -/
def failingForwardEnv : Env :=
  { reachableEnv with forward := fun _ _ => .ret (none, some "broken pipe") }

/-- Nothing has happened yet. -/
def emptyWorld : World := ⟨0, [], [], []⟩

/-- A server whose registry is an initialised, empty map. -/
def emptyServer : ProxyServer :=
  { ProxyServer.zero with clientManager := some [] }

/-- The inbound connection of the scenario in the specification. -/
def inboundConn : net.Conn := ⟨"10.0.0.5:54321"⟩

/-- A second inbound connection. -/
def otherConn : net.Conn := ⟨"10.0.0.6:40000"⟩

/-- A handshake with the given broker URL. -/
def handshake (url : Option String) : pb.CommandConnect := ⟨url, "client-version=3.0"⟩

/-- The session of `serverWithSession`. -/
def sessionZero : pnet.PulsarNetClient := ⟨0, ⟨"broker1", 6650, 0, 1024, 1024⟩⟩

/-- A server that already holds a session for `inboundConn`. -/
def serverWithSession : ProxyServer :=
  { ProxyServer.zero with clientManager := some [("10.0.0.5:54321", some sessionZero)] }

/-- The world in which `sessionZero` has been allocated. -/
def worldWithSession : World := ⟨1, [("10.0.0.5:54321", sessionZero.config)], [], []⟩

/-- A configuration with a 5 MiB message bound. -/
def sampleConfig : Config := ⟨"0.0.0.0", 6650, "2.10.0", 19, 5242880⟩

/-- What `NewProxyServer` returns for `sampleConfig` when the listener can be opened. -/
def freshServer : ProxyServer :=
  { ProxyServer.zero with
    netServer := some ⟨⟨"0.0.0.0", 6650, 5242880⟩⟩, server := some ⟨0⟩ }

/-- Two goroutines enter `buildRpcClient` for the same identity and the same broker. -/
def twoGoroutines : System :=
  ⟨emptyServer, emptyWorld,
    [⟨"10.0.0.5:54321", "broker1:6650", .atRLock⟩, ⟨"10.0.0.5:54321", "broker1:6650", .atRLock⟩]⟩

/-- Both goroutines run the check under the read lock before either takes the write lock;
then each in turn locks, dials, stores and unlocks.  No goroutine ever waits. -/
def racySchedule : List Nat :=
  [0, 0, 0, 0, 1, 1, 1, 1, 0, 0, 0, 0, 0, 1, 1, 1, 1, 1]

/-! ## Lemmas on the lock and the registry -/

/-- A read lock taken and released leaves the mutex as it was. -/
theorem RLock_RUnlock {m l : sync.RWMutex} (h : m.RLock = some l) : l.RUnlock = m := by
  unfold sync.RWMutex.RLock at h
  split at h
  · cases h
  · cases h
    cases m
    simp [sync.RWMutex.RUnlock]

/-- A read lock is granted exactly when no writer holds the mutex. -/
theorem RLock_eq_none_iff (m : sync.RWMutex) : m.RLock = none ↔ m.writer = true := by
  unfold sync.RWMutex.RLock
  split <;> simp_all

/-- A read lock is granted only when no writer holds the mutex. -/
theorem RLock_writer {m l : sync.RWMutex} (h : m.RLock = some l) : m.writer = false := by
  cases hw : m.writer
  · rfl
  · rw [(RLock_eq_none_iff m).2 hw] at h; cases h

/-- The write lock is granted only on an idle mutex, which it leaves held by the writer. -/
theorem Lock_eq_some {m l : sync.RWMutex} (h : m.Lock = some l) :
    m.readers = 0 ∧ m.writer = false ∧ l = ⟨true, 0⟩ := by
  unfold sync.RWMutex.Lock at h
  split at h
  · cases h
  · next hn =>
    cases h
    cases m with
    | mk wr rd =>
      simp only [not_or, not_lt, Nat.le_zero] at hn
      simp_all

/-- `Lock` on the idle mutex. -/
theorem Lock_idle : (⟨false, 0⟩ : sync.RWMutex).Lock = some ⟨true, 0⟩ := by decide

/-- `RUnlock` by the only reader. -/
theorem RUnlock_one : (⟨false, 1⟩ : sync.RWMutex).RUnlock = ⟨false, 0⟩ := by decide

/-- `Unlock` by the writer. -/
theorem Unlock_held : (⟨true, 0⟩ : sync.RWMutex).Unlock = ⟨false, 0⟩ := by decide

/-- `RLock` on the idle mutex. -/
theorem RLock_idle : (⟨false, 0⟩ : sync.RWMutex).RLock = some ⟨false, 1⟩ := by decide

/-- After `m[k] = v` the key `k` reads as `v`. -/
theorem lookup_assignEntries_self (k : String) (v : Option pnet.PulsarNetClient)
    (m : List (String × Option pnet.PulsarNetClient)) :
    (assignEntries k v m).lookup k = some v := by
  induction m with
  | nil => simp [assignEntries, List.lookup]
  | cons e rest ih =>
    obtain ⟨k1, v1⟩ := e
    unfold assignEntries
    by_cases hk : k1 = k
    · simp [hk, List.lookup]
    · have : (k == k1) = false := by simpa using fun h => hk h.symm
      simp [hk, List.lookup, this, ih]

/-- The assignment `m[k] = v` changes no other key. -/
theorem lookup_assignEntries_of_ne (k a : String) (v : Option pnet.PulsarNetClient)
    (m : List (String × Option pnet.PulsarNetClient)) (h : a ≠ k) :
    (assignEntries k v m).lookup a = m.lookup a := by
  induction m with
  | nil =>
    have : (a == k) = false := by simpa using h
    simp [assignEntries, List.lookup, this]
  | cons e rest ih =>
    obtain ⟨k1, v1⟩ := e
    unfold assignEntries
    by_cases hk : k1 = k
    · subst hk
      have : (a == k1) = false := by simpa using h
      simp [List.lookup, this]
    · simp only [hk, if_false, List.lookup]
      split <;> simp_all

/-- The lookup `getRpcClient` leaves the server as it found it. -/
theorem getRpcClient_server (p : ProxyServer) (addr : String) :
    (p.getRpcClient addr).2 = p := by
  unfold ProxyServer.getRpcClient
  split
  · rfl
  · next l1 h =>
    have hl := RLock_RUnlock h
    simp only [hl]
    split <;> rfl

/-! ## Lemmas on `buildRpcClient` -/

/-- While a writer holds the lock, `buildRpcClient` waits at its first statement. -/
theorem buildRpcClient_writer_held (env : Env) (p : ProxyServer) (w : World) (addr url : String)
    (h : p.clientLock.writer = true) :
    p.buildRpcClient env w addr url = (.blocked, p, w) := by
  unfold ProxyServer.buildRpcClient
  rw [(RLock_eq_none_iff _).2 h]

/-- For an identity with an entry `buildRpcClient` returns without any effect. -/
theorem buildRpcClient_present (env : Env) (p : ProxyServer) (w : World) (addr url : String)
    (hw : p.clientLock.writer = false) (h : (p.clientManager.index addr).2 = true) :
    p.buildRpcClient env w addr url = (.ret (), p, w) := by
  unfold ProxyServer.buildRpcClient
  split
  · next hl => rw [RLock_eq_none_iff] at hl; simp [hw] at hl
  · next l1 hl =>
    simp only [h, RLock_RUnlock hl]
    simp

/-- Every call of `buildRpcClient` calls no session, and either makes no constructor call and
keeps the registry (and a held write lock), or makes exactly one constructor call, for an
identity without entry on a lock no writer held, and then either is stuck with the write
lock held and the registry unchanged, or has assigned the identity in the registry. -/
theorem buildRpcClient_effect (env : Env) (p : ProxyServer) (w : World) (addr url : String) :
    (p.buildRpcClient env w addr url).2.2.forwards = w.forwards ∧
    (((p.buildRpcClient env w addr url).2.2.dials = w.dials
        ∧ (p.buildRpcClient env w addr url).2.1.clientManager = p.clientManager
        ∧ (p.clientLock.writer = true →
            (p.buildRpcClient env w addr url).2.1.clientLock.writer = true))
      ∨ (∃ cfg, (p.buildRpcClient env w addr url).2.2.dials = w.dials ++ [(addr, cfg)]
          ∧ (p.clientManager.index addr).2 = false
          ∧ p.clientLock.writer = false
          ∧ (((p.buildRpcClient env w addr url).2.1.clientLock.writer = true
                ∧ (p.buildRpcClient env w addr url).2.1.clientManager = p.clientManager)
              ∨ ∃ c m, p.clientManager = some m
                  ∧ (p.buildRpcClient env w addr url).2.1.clientManager
                      = some (assignEntries addr c m)))) := by
  unfold ProxyServer.buildRpcClient
  split
  · exact ⟨rfl, Or.inl ⟨rfl, rfl, fun h => h⟩⟩
  · next l1 hl =>
    have hw := RLock_writer hl
    simp only [RLock_RUnlock hl]
    split
    · next hex =>
      split
      · exact ⟨rfl, Or.inl ⟨rfl, rfl, fun h => h⟩⟩
      · next l2 hl2 =>
        obtain ⟨-, -, rfl⟩ := Lock_eq_some hl2
        split
        · exact ⟨rfl, Or.inl ⟨rfl, rfl, fun _ => rfl⟩⟩
        · split
          · exact ⟨rfl, Or.inl ⟨rfl, rfl, fun _ => rfl⟩⟩
          · next _ host _ _ portText _ =>
            have hex2 : (p.clientManager.index addr).2 = false := by simpa using hex
            cases hm : p.clientManager with
            | none =>
              rw [hm] at hex2
              cases hd : env.dialError ⟨host, (strconv.Atoi env.intSize portText).1,
                p.config.ProxyMaxMessageSize, 1024, 1024⟩ <;>
              · simp only [pnet.NewPulsarNetClient, hd, ClientMap.assign, World.errorf]
                exact ⟨(by first | rfl | trivial), Or.inr ⟨_, rfl, hex2, hw,
                  Or.inl ⟨(by first | rfl | trivial), (by first | rfl | trivial)⟩⟩⟩
            | some m =>
              rw [hm] at hex2
              cases hd : env.dialError ⟨host, (strconv.Atoi env.intSize portText).1,
                p.config.ProxyMaxMessageSize, 1024, 1024⟩ <;>
              · simp only [pnet.NewPulsarNetClient, hd, ClientMap.assign, World.errorf]
                exact ⟨(by first | rfl | trivial), Or.inr ⟨_, rfl, hex2, hw, Or.inr ⟨_, _, rfl, rfl⟩⟩⟩
    · exact ⟨rfl, Or.inl ⟨rfl, rfl, fun h => h⟩⟩

/-- An unseen identity on an idle lock, a URL with at least two parts, a reachable broker
and an initialised registry: the new client is stored under the identity. -/
theorem buildRpcClient_creates (env : Env) (p : ProxyServer) (w : World)
    (addr url host portText : String) (rest : List String)
    (m : List (String × Option pnet.PulsarNetClient))
    (hl : p.clientLock = ⟨false, 0⟩) (hm : p.clientManager = some m)
    (ha : m.lookup addr = none)
    (hs : strings.Split url ':' = host :: portText :: rest)
    (hd : env.dialError ⟨host, (strconv.Atoi env.intSize portText).1,
      p.config.ProxyMaxMessageSize, 1024, 1024⟩ = none) :
    p.buildRpcClient env w addr url =
      (.ret (),
        { p with clientManager := some (assignEntries addr
            (some ⟨w.nextClient, ⟨host, (strconv.Atoi env.intSize portText).1,
              p.config.ProxyMaxMessageSize, 1024, 1024⟩⟩) m) },
        { w with
          nextClient := w.nextClient + 1
          dials := w.dials ++ [(addr, ⟨host, (strconv.Atoi env.intSize portText).1,
              p.config.ProxyMaxMessageSize, 1024, 1024⟩)] }) := by
  obtain ⟨cfg, mgr, lock, ns, sv⟩ := p
  simp only at hl hm hd
  subst hl hm
  unfold ProxyServer.buildRpcClient
  simp only [RLock_idle, RUnlock_one, Unlock_held, ClientMap.index, ha,
    Bool.false_eq_true, not_false_eq_true, if_true, Lock_idle, hs, List.getElem?_cons_zero,
    List.getElem?_cons_succ, pnet.NewPulsarNetClient, hd, ClientMap.assign,
    sync.RWMutex.Unlock]

/-- The constructor call `buildRpcClient` makes for an unseen identity on an idle lock,
whatever the registry and the outcome of the dial. -/
theorem buildRpcClient_dials (env : Env) (p : ProxyServer) (w : World)
    (addr url host portText : String) (rest : List String)
    (hl : p.clientLock = ⟨false, 0⟩) (ha : (p.clientManager.index addr).2 = false)
    (hs : strings.Split url ':' = host :: portText :: rest) :
    (p.buildRpcClient env w addr url).2.2.dials
      = w.dials ++ [(addr, ⟨host, (strconv.Atoi env.intSize portText).1,
          p.config.ProxyMaxMessageSize, 1024, 1024⟩)] := by
  obtain ⟨cfg, mgr, lock, ns, sv⟩ := p
  simp only at hl ha
  subst hl
  unfold ProxyServer.buildRpcClient
  simp only [RLock_idle, RUnlock_one, Unlock_held, ha,
    Bool.false_eq_true, not_false_eq_true, if_true, Lock_idle, hs, List.getElem?_cons_zero,
    List.getElem?_cons_succ, pnet.NewPulsarNetClient]
  cases hd : env.dialError ⟨host, (strconv.Atoi env.intSize portText).1, cfg.ProxyMaxMessageSize,
      1024, 1024⟩ <;>
    cases mgr <;> simp [ClientMap.assign, World.errorf]

/-! ## Lemmas on `CommandConnect` and on runs -/

/-- Without a broker URL `CommandConnect` returns the missing-URL error and touches
nothing but the log. -/
theorem CommandConnect_nil_url (env : Env) (p : ProxyServer) (w : World) (conn : net.Conn)
    (connect : pb.CommandConnect) (h : connect.ProxyToBrokerUrl = none) :
    p.CommandConnect env w conn connect
      = (.ret (none, some "proxy to broker url is nil"), p,
          w.errorf "proxy to broker url is nil") := by
  unfold ProxyServer.CommandConnect
  rw [h]

/-- The lookup on an unlocked server: the stored client, or the not-found error. -/
theorem getRpcClient_found (p : ProxyServer) (addr : String) (c : Option pnet.PulsarNetClient)
    (hw : p.clientLock.writer = false) (h : p.clientManager.index addr = (c, true)) :
    p.getRpcClient addr = (.ret (c, none), p) := by
  have hs := getRpcClient_server p addr
  unfold ProxyServer.getRpcClient at hs ⊢
  split
  · next hl => rw [RLock_eq_none_iff] at hl; simp [hw] at hl
  · next l1 hl =>
    simp only [RLock_RUnlock hl, h]
    simp

/-- With a broker URL present, the server and the constructor calls after `CommandConnect`
are those after its `buildRpcClient` step. -/
theorem CommandConnect_server_dials (env : Env) (p : ProxyServer) (w : World) (conn : net.Conn)
    (connect : pb.CommandConnect) (url : String) (h : connect.ProxyToBrokerUrl = some url) :
    (p.CommandConnect env w conn connect).2.1 = (p.buildRpcClient env w conn.RemoteAddr url).2.1
    ∧ (p.CommandConnect env w conn connect).2.2.dials
        = (p.buildRpcClient env w conn.RemoteAddr url).2.2.dials := by
  unfold ProxyServer.CommandConnect
  rw [h]
  simp only
  rcases hb : p.buildRpcClient env w conn.RemoteAddr url with ⟨o, p1, w1⟩
  cases o with
  | panic e => exact ⟨rfl, rfl⟩
  | blocked => exact ⟨rfl, rfl⟩
  | ret u =>
    simp only
    have hs := getRpcClient_server p1 conn.RemoteAddr
    rcases hg : p1.getRpcClient conn.RemoteAddr with ⟨o2, p2⟩
    rw [hg] at hs
    simp only at hs
    subst hs
    cases o2 with
    | panic e => exact ⟨rfl, rfl⟩
    | blocked => exact ⟨rfl, rfl⟩
    | ret a =>
      obtain ⟨client, e1⟩ := a
      simp only
      cases hf : env.forward client connect with
      | panic e => exact ⟨rfl, rfl⟩
      | blocked => exact ⟨rfl, rfl⟩
      | ret b =>
        obtain ⟨resp, err⟩ := b
        cases err <;> exact ⟨rfl, rfl⟩

/-- Counting the constructor calls for `a` after one more call, made for `addr`. -/
theorem dialsFor_append (w : World) (a addr : String) (cfg : pnet.PulsarNetClientConfig)
    (ds : List (String × pnet.PulsarNetClientConfig)) (h : ds = w.dials ++ [(addr, cfg)]) :
    ((ds.filter (fun d => d.1 = a)).length
      = w.dialsFor a + if addr = a then 1 else 0) := by
  subst h
  unfold World.dialsFor
  by_cases hk : addr = a <;> simp [List.filter_append, List.filter, hk]

/-- One handshake keeps, for every identity `a`: at most one constructor call was made for
`a`, and if one was made then `a` has an entry or the write lock is stuck. -/
theorem CommandConnect_invariant (env : Env) (p : ProxyServer) (w : World) (conn : net.Conn)
    (connect : pb.CommandConnect) (a : String)
    (hJ : w.dialsFor a ≤ 1 ∧ (w.dialsFor a = 1 →
      (p.clientManager.index a).2 = true ∨ p.clientLock.writer = true)) :
    (p.CommandConnect env w conn connect).2.2.dialsFor a ≤ 1
    ∧ ((p.CommandConnect env w conn connect).2.2.dialsFor a = 1 →
        ((p.CommandConnect env w conn connect).2.1.clientManager.index a).2 = true
        ∨ (p.CommandConnect env w conn connect).2.1.clientLock.writer = true) := by
  cases hu : connect.ProxyToBrokerUrl with
  | none =>
    rw [CommandConnect_nil_url env p w conn connect hu]
    exact hJ
  | some url =>
    obtain ⟨h1, h2⟩ := CommandConnect_server_dials env p w conn connect url hu
    unfold World.dialsFor at hJ ⊢
    rw [h1, h2]
    obtain ⟨-, hE⟩ := buildRpcClient_effect env p w conn.RemoteAddr url
    rcases hE with ⟨hd, hm, hwr⟩ | ⟨cfg, hd, hab, hw, hrest⟩
    · rw [hd, hm]
      refine ⟨hJ.1, fun h => ?_⟩
      rcases hJ.2 h with hp | hp
      · exact Or.inl hp
      · exact Or.inr (hwr hp)
    · have hcount := dialsFor_append w a conn.RemoteAddr cfg _ hd
      unfold World.dialsFor at hcount
      rw [hcount]
      by_cases hk : conn.RemoteAddr = a
      · subst hk
        have h0 : (w.dials.filter (fun d => d.1 = conn.RemoteAddr)).length = 0 := by
          rcases Nat.lt_or_ge (w.dials.filter (fun d => d.1 = conn.RemoteAddr)).length 1 with
            hlt | hge
          · omega
          · have h1 : (w.dials.filter (fun d => d.1 = conn.RemoteAddr)).length = 1 :=
              Nat.le_antisymm hJ.1 hge
            rcases hJ.2 h1 with hp | hp
            · rw [hab] at hp; cases hp
            · rw [hw] at hp; cases hp
        rw [h0]
        simp only [if_true]
        refine ⟨Nat.le_refl _, fun _ => ?_⟩
        rcases hrest with ⟨hwr, -⟩ | ⟨c, m, -, hm2⟩
        · exact Or.inr hwr
        · left
          rw [hm2]
          simp [ClientMap.index, lookup_assignEntries_self]
      · simp only [hk, if_false, Nat.add_zero]
        refine ⟨hJ.1, fun h => ?_⟩
        rcases hJ.2 h with hp | hp
        · rcases hrest with ⟨-, hm2⟩ | ⟨c, m, hm1, hm2⟩
          · rw [hm2]; exact Or.inl hp
          · left
            rw [hm2]
            rw [hm1] at hp
            simp only [ClientMap.index] at hp ⊢
            rw [lookup_assignEntries_of_ne _ _ _ _ (fun h => hk h.symm)]
            exact hp
        · rw [hw] at hp; cases hp

/-- Over a sequential run from a state in which no session has been constructed, at most
one session is constructed for each identity. -/
theorem runHandshakes_dials_le_one (run : List Handshake) (p : ProxyServer) (w : World)
    (a : String)
    (hJ : w.dialsFor a ≤ 1 ∧ (w.dialsFor a = 1 →
      (p.clientManager.index a).2 = true ∨ p.clientLock.writer = true)) :
    (runHandshakes p w run).2.dialsFor a ≤ 1 := by
  induction run generalizing p w with
  | nil => exact hJ.1
  | cons h rest ih =>
    unfold runHandshakes
    exact ih _ _ (CommandConnect_invariant h.env p w h.conn h.connect a hJ)

/-- One handshake makes no constructor call for an identity that already has an entry, and
the entry stays. -/
theorem CommandConnect_present (env : Env) (p : ProxyServer) (w : World) (conn : net.Conn)
    (connect : pb.CommandConnect) (a : String) (hp : (p.clientManager.index a).2 = true) :
    ((p.CommandConnect env w conn connect).2.1.clientManager.index a).2 = true
    ∧ (p.CommandConnect env w conn connect).2.2.dialsFor a = w.dialsFor a := by
  cases hu : connect.ProxyToBrokerUrl with
  | none =>
    rw [CommandConnect_nil_url env p w conn connect hu]
    exact ⟨hp, rfl⟩
  | some url =>
    obtain ⟨h1, h2⟩ := CommandConnect_server_dials env p w conn connect url hu
    unfold World.dialsFor
    rw [h1, h2]
    obtain ⟨-, hE⟩ := buildRpcClient_effect env p w conn.RemoteAddr url
    rcases hE with ⟨hd, hm, -⟩ | ⟨cfg, hd, hab, -, hrest⟩
    · rw [hd, hm]
      exact ⟨hp, rfl⟩
    · have hk : conn.RemoteAddr ≠ a := by
        intro hk
        rw [hk, hp] at hab
        cases hab
      have hcount := dialsFor_append w a conn.RemoteAddr cfg _ hd
      unfold World.dialsFor at hcount
      rw [hcount]
      simp only [hk, if_false, Nat.add_zero, and_true]
      rcases hrest with ⟨-, hm2⟩ | ⟨c, m, hm1, hm2⟩
      · rw [hm2]; exact hp
      · rw [hm2]
        rw [hm1] at hp
        simp only [ClientMap.index] at hp ⊢
        rw [lookup_assignEntries_of_ne _ _ _ _ (fun h => hk h.symm)]
        exact hp

/-- Over a sequential run no session is constructed for an identity that has an entry at
the start. -/
theorem runHandshakes_present (run : List Handshake) (p : ProxyServer) (w : World)
    (a : String) (hp : (p.clientManager.index a).2 = true) :
    (runHandshakes p w run).2.dialsFor a = w.dialsFor a := by
  induction run generalizing p w with
  | nil => rfl
  | cons h rest ih =>
    unfold runHandshakes
    obtain ⟨h1, h2⟩ := CommandConnect_present h.env p w h.conn h.connect a hp
    rw [ih _ _ h1, h2]

/-- A slice of length at least two has elements 0 and 1. -/
theorem split_of_two_le (l : List String) (h : 2 ≤ l.length) :
    ∃ host portText rest, l = host :: portText :: rest := by
  match l, h with
  | host :: portText :: rest, _ => exact ⟨host, portText, rest, rfl⟩

/-- When the write lock is free and either the identity has an entry, or the lock is idle,
the registry initialised and the URL has at least two parts, `buildRpcClient` returns,
the lock is free again, the identity has an entry, and no session was called. -/
theorem buildRpcClient_returns (env : Env) (p : ProxyServer) (w : World) (addr url : String)
    (hw : p.clientLock.writer = false)
    (hok : (p.clientManager.index addr).2 = true
      ∨ (p.clientLock.readers = 0 ∧ p.clientManager ≠ none
          ∧ 2 ≤ (strings.Split url ':').length)) :
    ∃ p1 w1, p.buildRpcClient env w addr url = (.ret (), p1, w1)
      ∧ p1.clientLock.writer = false
      ∧ (p1.clientManager.index addr).2 = true
      ∧ w1.forwards = w.forwards := by
  by_cases hp : (p.clientManager.index addr).2 = true
  · exact ⟨p, w, buildRpcClient_present env p w addr url hw hp, hw, hp, rfl⟩
  · rcases hok with h | ⟨hr, hm, hlen⟩
    · exact absurd h hp
    · obtain ⟨host, portText, rest, hs⟩ := split_of_two_le _ hlen
      obtain ⟨cfg, mgr, lock, ns, sv⟩ := p
      obtain ⟨wr, rd⟩ := lock
      simp only at hw hr hm hp
      subst hw hr
      cases mgr with
      | none => exact absurd rfl hm
      | some m =>
        have ha : (ClientMap.index (some m) addr).2 = false := by simpa using hp
        unfold ProxyServer.buildRpcClient
        simp only [RLock_idle, RUnlock_one, Unlock_held, ha, Bool.false_eq_true,
          not_false_eq_true, if_true, Lock_idle, hs, List.getElem?_cons_zero,
          List.getElem?_cons_succ, pnet.NewPulsarNetClient, ClientMap.assign]
        refine ⟨_, _, rfl, rfl, ?_, ?_⟩
        · simp [ClientMap.index, lookup_assignEntries_self]
        · cases env.dialError ⟨host, (strconv.Atoi env.intSize portText).1,
            cfg.ProxyMaxMessageSize, 1024, 1024⟩ <;> rfl

/-- `CommandConnect` once its `buildRpcClient` step has returned with the write lock free
and an entry `c` for the identity: one call of the session `c` with the message received,
and the outcome of that call is the outcome of `CommandConnect`. -/
theorem CommandConnect_forwards (env : Env) (p p1 : ProxyServer) (w w1 : World)
    (conn : net.Conn) (connect : pb.CommandConnect) (url : String)
    (c : Option pnet.PulsarNetClient)
    (hurl : connect.ProxyToBrokerUrl = some url)
    (hb : p.buildRpcClient env w conn.RemoteAddr url = (.ret (), p1, w1))
    (hw : p1.clientLock.writer = false)
    (hc : p1.clientManager.index conn.RemoteAddr = (c, true)) :
    (p.CommandConnect env w conn connect).1 = env.forward c connect
    ∧ (p.CommandConnect env w conn connect).2.1 = p1
    ∧ (p.CommandConnect env w conn connect).2.2.forwards = w1.forwards ++ [(c, connect)]
    ∧ (p.CommandConnect env w conn connect).2.2.dials = w1.dials
    ∧ (p.CommandConnect env w conn connect).2.2.nextClient = w1.nextClient := by
  unfold ProxyServer.CommandConnect
  rw [hurl]
  simp only [hb, getRpcClient_found p1 conn.RemoteAddr c hw hc]
  cases hf : env.forward c connect with
  | panic e => exact ⟨rfl, rfl, rfl, rfl, rfl⟩
  | blocked => exact ⟨rfl, rfl, rfl, rfl, rfl⟩
  | ret b =>
    obtain ⟨resp, err⟩ := b
    cases err <;> exact ⟨rfl, rfl, rfl, rfl, rfl⟩

/-- A map read that finds the key. -/
theorem index_eq_of_snd {m : ClientMap} {a : String} (h : (m.index a).2 = true) :
    m.index a = ((m.index a).1, true) := by
  rw [← h]

/-- Whatever the configuration and the `server` argument, the server `NewProxyServer`
returns has a nil registry and the zero configuration; the inbound server got the
configured message bound. -/
theorem NewProxyServer_fields (env : Env) (config : Config) (server : Server) (p : ProxyServer)
    (h : (NewProxyServer env config server).1 = some p) :
    p.clientManager = none ∧ p.config = Config.zero ∧ p.clientLock = ⟨false, 0⟩
    ∧ p.netServer = some ⟨⟨config.Host, config.Port, config.ProxyMaxMessageSize⟩⟩ := by
  unfold NewProxyServer pnet.NewPulsarNetServer at h
  cases hl : env.listenError ⟨config.Host, config.Port, config.ProxyMaxMessageSize⟩ with
  | some e => simp [hl] at h
  | none =>
    simp only [hl, Option.some.injEq] at h
    subst h
    exact ⟨rfl, rfl, rfl, rfl⟩

/-- An unseen identity on an idle lock, an initialised registry and a URL with at least two
parts: when the dial fails, a nil client is stored under the identity all the same. -/
theorem buildRpcClient_failed_dial (env : Env) (p : ProxyServer) (w : World)
    (addr url host portText e : String) (rest : List String)
    (m : List (String × Option pnet.PulsarNetClient))
    (hl : p.clientLock = ⟨false, 0⟩) (hm : p.clientManager = some m)
    (ha : m.lookup addr = none)
    (hs : strings.Split url ':' = host :: portText :: rest)
    (hd : env.dialError ⟨host, (strconv.Atoi env.intSize portText).1,
      p.config.ProxyMaxMessageSize, 1024, 1024⟩ = some e) :
    (p.buildRpcClient env w addr url).1 = .ret ()
    ∧ (p.buildRpcClient env w addr url).2.1
        = { p with clientManager := some (assignEntries addr none m) }
    ∧ ((p.buildRpcClient env w addr url).2.1.getRpcClient addr).1 = .ret (none, none) := by
  obtain ⟨cfg, mgr, lock, ns, sv⟩ := p
  simp only at hl hm hd
  subst hl hm
  unfold ProxyServer.buildRpcClient
  simp only [RLock_idle, RUnlock_one, Unlock_held, ClientMap.index, ha,
    Bool.false_eq_true, not_false_eq_true, if_true, Lock_idle, hs, List.getElem?_cons_zero,
    List.getElem?_cons_succ, pnet.NewPulsarNetClient, hd, ClientMap.assign]
  refine ⟨trivial, trivial, ?_⟩
  rw [getRpcClient_found _ addr none rfl]
  simp [ClientMap.index, lookup_assignEntries_self]

/-! ## Lemmas on `strconv.Atoi` and `strings.Split` -/

namespace strconv

/-- The digit character of `m` is read as `m`. -/
theorem digitVal_digitChar (m : Nat) (h : m < 10) : digitVal (Nat.digitChar m) = some m := by
  interval_cases m <;> rfl

/-- Reading one digit character in the fast loop. -/
theorem fastLoop_digitChar (m : Nat) (h : m < 10) (tail : List Char) (a : Nat) :
    fastLoop (Nat.digitChar m :: tail) a = fastLoop tail (a * 10 + m) := by
  simp only [fastLoop, digitVal_digitChar m h]

/-- Rendering in base 10 and reading back: the fast loop, after the characters that
`Nat.toDigitsCore` writes for `n` in front of `tail`, goes on with the accumulator shifted
by the number of digits written, plus `n`. -/
theorem fastLoop_toDigitsCore (fuel : Nat) (n : Nat) (tail : List Char) (hfuel : n < fuel) :
    ∃ k, ∀ a, fastLoop (Nat.toDigitsCore 10 fuel n tail) a = fastLoop tail (a * 10 ^ k + n) := by
  induction fuel generalizing n tail with
  | zero => omega
  | succ fuel ih =>
    have hmod : n % 10 < 10 := Nat.mod_lt _ (by decide)
    unfold Nat.toDigitsCore
    by_cases hq : n / 10 = 0
    · refine ⟨1, fun a => ?_⟩
      have hsmall : n % 10 = n := Nat.mod_eq_of_lt (by omega)
      simp only [hq, if_true, pow_one]
      rw [fastLoop_digitChar _ hmod, hsmall]
    · obtain ⟨k, hk⟩ := ih (n / 10) (Nat.digitChar (n % 10) :: tail) (by omega)
      refine ⟨k + 1, fun a => ?_⟩
      simp only [hq, if_false, hk a, fastLoop_digitChar _ hmod]
      congr 1
      rw [pow_succ]
      have hsplit := Nat.div_add_mod n 10
      nlinarith [hsplit]

/-- Rendering in base 10 writes decimal digits only. -/
theorem digitVal_toDigitsCore (fuel n : Nat) (tail : List Char)
    (htail : ∀ c ∈ tail, (digitVal c).isSome = true) :
    ∀ c ∈ Nat.toDigitsCore 10 fuel n tail, (digitVal c).isSome = true := by
  induction fuel generalizing n tail with
  | zero => exact htail
  | succ fuel ih =>
    have hstep : ∀ c ∈ Nat.digitChar (n % 10) :: tail, (digitVal c).isSome = true := by
      intro c hc
      rcases List.mem_cons.1 hc with hc | hc
      · rw [hc, digitVal_digitChar _ (Nat.mod_lt _ (by decide))]
        rfl
      · exact htail c hc
    unfold Nat.toDigitsCore
    by_cases hq : n / 10 = 0
    · simpa only [hq, if_true] using hstep
    · simpa only [hq, if_false] using ih (n / 10) _ hstep

/-- Rendering writes at least one character. -/
theorem toDigitsCore_ne_nil (fuel n : Nat) (tail : List Char) :
    Nat.toDigitsCore 10 (fuel + 1) n tail ≠ [] := by
  induction fuel generalizing n tail with
  | zero =>
    unfold Nat.toDigitsCore
    by_cases hq : n / 10 = 0 <;> simp [hq, Nat.toDigitsCore]
  | succ fuel ih =>
    unfold Nat.toDigitsCore
    by_cases hq : n / 10 = 0
    · simp [hq]
    · simpa only [hq, if_false] using ih (n / 10) _

/-- The fast loop never yields less than its accumulator. -/
theorem fastLoop_le : ∀ (ds : List Char) (a v : Nat), fastLoop ds a = some v → a ≤ v := by
  intro ds
  induction ds with
  | nil => intro a v h; simp only [fastLoop, Option.some.injEq] at h; omega
  | cons c rest ih =>
    intro a v h
    simp only [fastLoop] at h
    cases hd : digitVal c with
    | none => rw [hd] at h; cases h
    | some d =>
      rw [hd] at h
      have := ih _ _ h
      omega

/-- On input the fast loop reads as `v`, the loop of `ParseUint` gives `v` too, as long as
`v` does not exceed the largest value allowed. -/
theorem parseUintLoop_of_fastLoop (maxVal : Nat) (hmax : maxVal < 2 ^ 64) :
    ∀ (ds : List Char) (a v : Nat), fastLoop ds a = some v → v ≤ maxVal →
      parseUintLoop maxVal ds a = (v, none) := by
  intro ds
  induction ds with
  | nil =>
    intro a v h _
    simp only [fastLoop, Option.some.injEq] at h
    simp [parseUintLoop, h]
  | cons c rest ih =>
    intro a v h hv
    simp only [fastLoop] at h
    cases hd : digitVal c with
    | none => rw [hd] at h; cases h
    | some d =>
      rw [hd] at h
      have hle := fastLoop_le _ _ _ h
      have hlt : a * 10 + d < 2 ^ 64 := by omega
      have hcut : ¬ a ≥ maxUint64 / 10 + 1 := by
        have : maxUint64 / 10 + 1 = 1844674407370955162 := by decide
        rw [this]
        have h64 : (2 : Nat) ^ 64 = 18446744073709551616 := by norm_num
        omega
      simp only [parseUintLoop, hd, hcut, if_false, Nat.mod_eq_of_lt hlt]
      have hno : ¬ (a * 10 + d < a * 10 ∨ a * 10 + d > maxVal) := by omega
      simp only [hno, if_false]
      exact ih _ _ h hv

/-- `Atoi` reads the decimal rendering of a number that fits `int` as that number, without
error. -/
theorem Atoi_repr (intSize n : Nat) (hsz : intSize ≤ 64) (hn : n < 2 ^ (intSize - 1)) :
    Atoi intSize (Nat.repr n) = ((n : Int), none) := by
  have hdata : (Nat.repr n).data = Nat.toDigits 10 n := rfl
  have hfast : fastLoop (Nat.toDigits 10 n) 0 = some n := by
    obtain ⟨k, hk⟩ := fastLoop_toDigitsCore (n + 1) n [] (Nat.lt_succ_self n)
    simpa [Nat.toDigits, fastLoop] using hk 0
  have hdig := digitVal_toDigitsCore (n + 1) n [] (fun c hc => absurd hc (List.not_mem_nil c))
  have hne := toDigitsCore_ne_nil n n []
  unfold Atoi
  simp only [hdata]
  rw [show Nat.toDigitsCore 10 (n + 1) n [] = Nat.toDigits 10 n from rfl] at hdig hne
  cases hds : Nat.toDigits 10 n with
  | nil => exact absurd hds hne
  | cons c0 tl =>
    rw [hds] at hfast hdig
    have hc0 := hdig c0 (List.mem_cons_self _ _)
    have hminus : c0 ≠ '-' := by
      intro h
      rw [h] at hc0
      exact absurd hc0 (by decide)
    have hplus : c0 ≠ '+' := by
      intro h
      rw [h] at hc0
      exact absurd hc0 (by decide)
    split
    · simp only [hminus, hplus, or_self, false_and, if_false, hfast]
    · have hpow : 2 ^ (intSize - 1) ≤ 2 ^ intSize := Nat.pow_le_pow_right (by decide) (by omega)
      have hpos : 0 < 2 ^ (intSize - 1) := Nat.pow_pos (by decide)
      have h64 : 2 ^ intSize ≤ 2 ^ 64 := Nat.pow_le_pow_right (by decide) hsz
      have hloop := parseUintLoop_of_fastLoop (2 ^ intSize - 1) (by omega) (c0 :: tl) 0 n hfast
        (by omega)
      simp only [ParseInt, ParseUint, hminus, hplus, or_self, if_false, hloop]
      have hge : ¬ n ≥ 2 ^ (intSize - 1) := by omega
      simp [hge]

end strconv

/-- The decimal rendering of a number contains no ":". -/
theorem colon_not_mem_repr (n : Nat) : ':' ∉ (Nat.repr n).data := by
  intro hmem
  have hdig := strconv.digitVal_toDigitsCore (n + 1) n []
    (fun c hc => absurd hc (List.not_mem_nil c)) ':' hmem
  exact absurd hdig (by decide)

/-- A URL made of a host without ":", a ":" and a decimal number splits into the host and
the number. -/
theorem Split_host_port (h : String) (n : Nat) (hh : ':' ∉ h.data) :
    strings.Split (h ++ ":" ++ Nat.repr n) ':' = [h, Nat.repr n] := by
  have hdata : (h ++ ":" ++ Nat.repr n).data
      = [':'].intercalate [h.data, (Nat.repr n).data] := by
    simp [String.data_append, List.intercalate]
  unfold strings.Split
  rw [hdata, List.splitOn_intercalate]
  · rfl
  · intro l hl
    simp only [List.mem_cons, List.mem_singleton, List.not_mem_nil, or_false] at hl
    rcases hl with rfl | rfl
    · exact hh
    · exact colon_not_mem_repr n
  · simp

/-! ## C1: a handshake without a broker URL -/

/-- C1 (counterexample): a handshake whose broker URL is the empty string is not rejected.
From an identity that already has a session it is forwarded over that session and the
broker reply is returned without error; from an unseen identity the call panics on
`split[1]` instead of returning. -/
theorem C1_empty_url_is_not_rejected :
    (ProxyServer.CommandConnect reachableEnv serverWithSession worldWithSession inboundConn
        (handshake (some ""))).1 = .ret (some ⟨"connected"⟩, none)
    ∧ (ProxyServer.CommandConnect reachableEnv emptyServer emptyWorld inboundConn
        (handshake (some ""))).1 = .panic (.indexOutOfRange 1 1) := by
  decide

/-- C1 (amended): for every server state, connection and handshake whose broker URL is
absent (nil), `CommandConnect` returns no response and the error
"proxy to broker url is nil", leaves the server (registry and lock) unchanged, and calls
neither the outbound constructor nor a session. -/
theorem C1_nil_url_is_rejected (env : Env) (p : ProxyServer) (w : World) (conn : net.Conn)
    (connect : pb.CommandConnect) (h : connect.ProxyToBrokerUrl = none) :
    (p.CommandConnect env w conn connect).1 = .ret (none, some "proxy to broker url is nil")
    ∧ (p.CommandConnect env w conn connect).2.1 = p
    ∧ (p.CommandConnect env w conn connect).2.2.dials = w.dials
    ∧ (p.CommandConnect env w conn connect).2.2.nextClient = w.nextClient
    ∧ (p.CommandConnect env w conn connect).2.2.forwards = w.forwards := by
  rw [CommandConnect_nil_url env p w conn connect h]
  exact ⟨rfl, rfl, rfl, rfl, rfl⟩

/-- C1 (witness): the nil-URL handshake of `inboundConn` on the empty server. -/
theorem C1_nil_url_is_rejected_witness :
    (handshake none).ProxyToBrokerUrl = none
    ∧ (emptyServer.CommandConnect reachableEnv emptyWorld inboundConn (handshake none)).1
        = .ret (none, some "proxy to broker url is nil")
    ∧ (emptyServer.CommandConnect reachableEnv emptyWorld inboundConn (handshake none)).2.1
        = emptyServer :=
  have h := C1_nil_url_is_rejected reachableEnv emptyServer emptyWorld inboundConn
    (handshake none) rfl
  ⟨rfl, h.1, h.2.1⟩

/-! ## C2, C3, C6, C7, C9: where the code departs from the specification -/

/-- C2 (failing input): on an initialised empty registry, a handshake for "broker1:6650"
while the broker is unreachable stores a nil client under the identity: the registry has
one entry, `getRpcClient` reports it as found, the call itself ends in the nil session, and
a later handshake with the broker reachable again makes no second constructor call. -/
theorem C2_failed_dial_leaves_nil_entry :
    (emptyServer.CommandConnect unreachableEnv emptyWorld inboundConn
        (handshake (some "broker1:6650"))).2.1.clientManager = some [("10.0.0.5:54321", none)]
    ∧ ((emptyServer.CommandConnect unreachableEnv emptyWorld inboundConn
        (handshake (some "broker1:6650"))).2.1.getRpcClient "10.0.0.5:54321").1
        = .ret (none, none)
    ∧ (emptyServer.CommandConnect unreachableEnv emptyWorld inboundConn
        (handshake (some "broker1:6650"))).1 = .panic .nilDereference
    ∧ ((runHandshakes emptyServer emptyWorld
          [⟨unreachableEnv, inboundConn, handshake (some "broker1:6650")⟩,
           ⟨reachableEnv, inboundConn, handshake (some "broker1:6650")⟩]).2.dialsFor
        "10.0.0.5:54321") = 1
    ∧ (runHandshakes emptyServer emptyWorld
          [⟨unreachableEnv, inboundConn, handshake (some "broker1:6650")⟩,
           ⟨reachableEnv, inboundConn, handshake (some "broker1:6650")⟩]).1.clientManager
        = some [("10.0.0.5:54321", none)] := by
  decide

/-- C3 (failing input): the server returned by `NewProxyServer` has a nil registry, so the
first handshake from any identity, with a well-formed URL and a reachable broker, dials and
then panics on the map assignment; the registry stays nil and the write lock stays held. -/
theorem C3_fresh_server_registry_is_nil :
    NewProxyServer reachableEnv sampleConfig ⟨0⟩ = (some freshServer, none)
    ∧ freshServer.clientManager = none
    ∧ (freshServer.CommandConnect reachableEnv emptyWorld inboundConn
        (handshake (some "broker1:6650"))).1 = .panic .assignNilMap
    ∧ (freshServer.CommandConnect reachableEnv emptyWorld inboundConn
        (handshake (some "broker1:6650"))).2.1.clientManager = none
    ∧ (freshServer.CommandConnect reachableEnv emptyWorld inboundConn
        (handshake (some "broker1:6650"))).2.1.clientLock = ⟨true, 0⟩
    ∧ (freshServer.CommandConnect reachableEnv emptyWorld inboundConn
        (handshake (some "broker1:6650"))).2.2.dialsFor "10.0.0.5:54321" = 1 := by
  decide

/-- C6 (failing input): on an initialised empty registry a handshake whose URL has no
":" makes `CommandConnect` panic with index 1 out of range on the one-element split; the
write lock is still held afterwards, so the next handshake waits for ever.  And after a
failed construction the session method is called on the nil client. -/
theorem C6_url_without_colon_panics :
    (emptyServer.CommandConnect reachableEnv emptyWorld inboundConn
        (handshake (some "broker1"))).1 = .panic (.indexOutOfRange 1 1)
    ∧ (emptyServer.CommandConnect reachableEnv emptyWorld inboundConn
        (handshake (some "broker1"))).2.1.clientLock = ⟨true, 0⟩
    ∧ ((emptyServer.CommandConnect reachableEnv emptyWorld inboundConn
        (handshake (some "broker1"))).2.1.CommandConnect reachableEnv emptyWorld otherConn
        (handshake (some "broker1:6650"))).1 = .blocked
    ∧ (emptyServer.CommandConnect unreachableEnv emptyWorld inboundConn
        (handshake (some "broker1:6650"))).2.2.forwards
        = [(none, handshake (some "broker1:6650"))] := by
  decide

/-- C7 (failing input): `NewProxyServer` passes the configured bound 5242880 to the inbound
server but never stores the configuration, so `buildRpcClient` on the returned server
passes `BufferMax = 0` to the outbound constructor. -/
theorem C7_outbound_buffer_max_is_zero :
    NewProxyServer reachableEnv sampleConfig ⟨0⟩ = (some freshServer, none)
    ∧ freshServer.netServer = some ⟨⟨"0.0.0.0", 6650, 5242880⟩⟩
    ∧ freshServer.config.ProxyMaxMessageSize = 0
    ∧ (freshServer.buildRpcClient reachableEnv emptyWorld "10.0.0.5:54321"
        "broker1:6650").2.2.dials
        = [("10.0.0.5:54321", ⟨"broker1", 6650, 0, 1024, 1024⟩)] := by
  decide

/-- C9 (failing input): on the server returned by `NewProxyServer` the identities
"10.0.0.5:54321" and "10.0.0.6:40000" are distinct and have no entry, and "broker1:6650" is
reachable; the first handshake dials and panics on the assignment to the nil registry with
the write lock held, the second waits for ever at the read lock: one constructor call has
been made, not two, and the registry maps neither identity to a session. -/
theorem C9_fresh_server_holds_no_sessions :
    NewProxyServer reachableEnv sampleConfig ⟨0⟩ = (some freshServer, none)
    ∧ inboundConn.RemoteAddr ≠ otherConn.RemoteAddr
    ∧ freshServer.clientManager.index inboundConn.RemoteAddr = (none, false)
    ∧ freshServer.clientManager.index otherConn.RemoteAddr = (none, false)
    ∧ (freshServer.CommandConnect reachableEnv emptyWorld inboundConn
        (handshake (some "broker1:6650"))).1 = .panic .assignNilMap
    ∧ ((freshServer.CommandConnect reachableEnv emptyWorld inboundConn
        (handshake (some "broker1:6650"))).2.1.CommandConnect reachableEnv
        (freshServer.CommandConnect reachableEnv emptyWorld inboundConn
          (handshake (some "broker1:6650"))).2.2 otherConn
        (handshake (some "broker1:6650"))).1 = .blocked
    ∧ ((freshServer.CommandConnect reachableEnv emptyWorld inboundConn
        (handshake (some "broker1:6650"))).2.1.CommandConnect reachableEnv
        (freshServer.CommandConnect reachableEnv emptyWorld inboundConn
          (handshake (some "broker1:6650"))).2.2 otherConn
        (handshake (some "broker1:6650"))).2.2.dials
        = [("10.0.0.5:54321", ⟨"broker1", 6650, 0, 1024, 1024⟩)]
    ∧ ((freshServer.CommandConnect reachableEnv emptyWorld inboundConn
        (handshake (some "broker1:6650"))).2.1.CommandConnect reachableEnv
        (freshServer.CommandConnect reachableEnv emptyWorld inboundConn
          (handshake (some "broker1:6650"))).2.2 otherConn
        (handshake (some "broker1:6650"))).2.1.clientManager = none := by
  decide

/-! ## C4, C5, C8: what the code does as specified -/

/-- C4: when the registry already has an entry `c` for identity `addr`, then for every
broker URL `buildRpcClient(addr, url)` leaves the server and the world as they were (no
constructor call, registry unchanged); with the write lock free it returns, and
`CommandConnect` from `addr` calls that same session `c` with the handshake, ends as that
call ends and changes neither registry nor constructor calls.  Hence over every sequential
run of handshakes that starts with an empty record of constructor calls, at most one session
is constructed for each identity, and none for an identity that had an entry at the start. -/
theorem C4_existing_session_is_reused (env : Env) (p : ProxyServer) (w : World)
    (addr url : String) (c : Option pnet.PulsarNetClient)
    (h : p.clientManager.index addr = (c, true)) :
    (p.buildRpcClient env w addr url).2.1 = p
    ∧ (p.buildRpcClient env w addr url).2.2 = w
    ∧ (p.clientLock.writer = false →
        (p.buildRpcClient env w addr url).1 = .ret ()
        ∧ ∀ (conn : net.Conn) (connect : pb.CommandConnect),
            conn.RemoteAddr = addr → connect.ProxyToBrokerUrl = some url →
            (p.CommandConnect env w conn connect).1 = env.forward c connect
            ∧ (p.CommandConnect env w conn connect).2.1 = p
            ∧ (p.CommandConnect env w conn connect).2.2.forwards = w.forwards ++ [(c, connect)]
            ∧ (p.CommandConnect env w conn connect).2.2.dials = w.dials
            ∧ (p.CommandConnect env w conn connect).2.2.nextClient = w.nextClient)
    ∧ (∀ (p0 : ProxyServer) (w0 : World) (run : List Handshake) (a : String),
        w0.dials = [] →
        (runHandshakes p0 w0 run).2.dialsFor a ≤ 1
        ∧ ((p0.clientManager.index a).2 = true → (runHandshakes p0 w0 run).2.dialsFor a = 0))
    := by
  have hp : (p.clientManager.index addr).2 = true := by rw [h]
  refine ⟨?_, ?_, ?_, ?_⟩
  · cases hw : p.clientLock.writer
    · rw [buildRpcClient_present env p w addr url hw hp]
    · rw [buildRpcClient_writer_held env p w addr url hw]
  · cases hw : p.clientLock.writer
    · rw [buildRpcClient_present env p w addr url hw hp]
    · rw [buildRpcClient_writer_held env p w addr url hw]
  · intro hw
    have hb := buildRpcClient_present env p w addr url hw hp
    refine ⟨by rw [hb], ?_⟩
    intro conn connect hconn hurl
    subst hconn
    exact CommandConnect_forwards env p p w w conn connect url c hurl hb hw h
  · intro p0 w0 run a h0
    have hz : w0.dialsFor a = 0 := by
      unfold World.dialsFor
      rw [h0]
      rfl
    refine ⟨?_, fun hpres => ?_⟩
    · apply runHandshakes_dials_le_one
      rw [hz]
      exact ⟨by decide, fun h1 => absurd h1 (by decide)⟩
    · rw [runHandshakes_present run p0 w0 a hpres, hz]

/-- C4 (witness): the identity of `inboundConn` has the session `sessionZero`, made for
"broker1:6650"; a handshake naming "broker2:6651" is forwarded over `sessionZero`. -/
theorem C4_existing_session_is_reused_witness :
    serverWithSession.clientManager.index "10.0.0.5:54321" = (some sessionZero, true)
    ∧ (serverWithSession.buildRpcClient reachableEnv worldWithSession "10.0.0.5:54321"
        "broker2:6651").2.2 = worldWithSession
    ∧ (serverWithSession.CommandConnect reachableEnv worldWithSession inboundConn
        (handshake (some "broker2:6651"))).2.2.forwards
        = [(some sessionZero, handshake (some "broker2:6651"))] :=
  have h := C4_existing_session_is_reused reachableEnv serverWithSession worldWithSession
    "10.0.0.5:54321" "broker2:6651" (some sessionZero) (by decide)
  ⟨by decide, h.2.1, (h.2.2.1 rfl).2 inboundConn (handshake (some "broker2:6651")) rfl rfl
    |>.2.2.1⟩

/-- C5: for every handshake with a URL for which a session is obtained (the write lock is
free, and the identity has an entry or the lock is idle, the registry initialised and the
URL has at least two ":"-separated parts), `CommandConnect` calls the session `c` stored
for the identity exactly once, with the handshake it received, and ends exactly as that
call ends: with the reply `r` and a nil error when the call returned `(r, nil)`, with the
error `e` when the call returned error `e`. -/
theorem C5_session_outcome_is_returned (env : Env) (p : ProxyServer) (w : World)
    (conn : net.Conn) (connect : pb.CommandConnect) (url : String)
    (hurl : connect.ProxyToBrokerUrl = some url)
    (hw : p.clientLock.writer = false)
    (hok : (p.clientManager.index conn.RemoteAddr).2 = true
      ∨ (p.clientLock.readers = 0 ∧ p.clientManager ≠ none
          ∧ 2 ≤ (strings.Split url ':').length)) :
    ∃ c, (p.CommandConnect env w conn connect).2.1.clientManager.index conn.RemoteAddr
          = (c, true)
      ∧ (p.CommandConnect env w conn connect).2.2.forwards = w.forwards ++ [(c, connect)]
      ∧ (p.CommandConnect env w conn connect).1 = env.forward c connect
      ∧ (∀ r, env.forward c connect = .ret (some r, none) →
          (p.CommandConnect env w conn connect).1 = .ret (some r, none))
      ∧ (∀ resp e, env.forward c connect = .ret (resp, some e) →
          (p.CommandConnect env w conn connect).1 = .ret (resp, some e)) := by
  obtain ⟨p1, w1, hb, hw1, hp1, hf1⟩ := buildRpcClient_returns env p w conn.RemoteAddr url hw hok
  obtain ⟨h1, h2, h3, -, -⟩ := CommandConnect_forwards env p p1 w w1 conn connect url _ hurl hb
    hw1 (index_eq_of_snd hp1)
  refine ⟨(p1.clientManager.index conn.RemoteAddr).1, ?_, ?_, h1, ?_, ?_⟩
  · rw [h2]; exact index_eq_of_snd hp1
  · rw [h3, hf1]
  · intro r hr; rw [h1, hr]
  · intro resp e he; rw [h1, he]

/-- C5 (witness): an unseen identity, a reachable broker that fails the handshake with
"broken pipe": the error is returned and the session was called once. -/
theorem C5_session_outcome_is_returned_witness :
    (emptyServer.CommandConnect failingForwardEnv emptyWorld inboundConn
        (handshake (some "broker1:6650"))).1 = .ret (none, some "broken pipe")
    ∧ ((emptyServer.CommandConnect failingForwardEnv emptyWorld inboundConn
        (handshake (some "broker1:6650"))).2.2.forwards.map Prod.snd)
        = [handshake (some "broker1:6650")] := by
  obtain ⟨c, -, h2, -, -, h5⟩ := C5_session_outcome_is_returned failingForwardEnv emptyServer
    emptyWorld inboundConn (handshake (some "broker1:6650")) "broker1:6650" rfl rfl
    (Or.inr ⟨rfl, by decide, by decide⟩)
  exact ⟨h5 none "broken pipe" rfl, by rw [h2]; rfl⟩

/-- C8 (counterexample): for the host "broker1" and the port number 2^63, written in
decimal, the connection requested on a 64-bit platform has port 2^63 - 1: `Atoi` reports a
range error, which `buildRpcClient` discards, and yields the largest `int`. -/
theorem C8_port_beyond_int_is_clamped :
    (emptyServer.buildRpcClient reachableEnv emptyWorld "10.0.0.5:54321"
        ("broker1" ++ ":" ++ Nat.repr 9223372036854775808)).2.2.dials
      = [("10.0.0.5:54321", ⟨"broker1", 9223372036854775807, 0, 1024, 1024⟩)]
    ∧ "broker1" ++ ":" ++ Nat.repr 9223372036854775808 = "broker1:9223372036854775808"
    ∧ strconv.Atoi 64 "9223372036854775808" = (9223372036854775807, some .ErrRange) := by
  decide

/-- C8 (amended): for every host `h` without ":" and every non-negative integer `n` that
fits Go `int` (`n < 2^(intSize-1)`, with `intSize` 32 or 64), when the identity has no entry
and the lock is idle, `buildRpcClient(addr, h ++ ":" ++ decimal n)` calls the outbound
constructor once, with `Host = h`, `Port = n`, `BufferMax` the stored message bound, and both
queue sizes 1024. -/
theorem C8_host_and_port_are_parsed (env : Env) (p : ProxyServer) (w : World)
    (addr h : String) (n : Nat)
    (hsize : env.intSize = 32 ∨ env.intSize = 64) (hn : n < 2 ^ (env.intSize - 1))
    (hh : ':' ∉ h.data) (hl : p.clientLock = ⟨false, 0⟩)
    (ha : (p.clientManager.index addr).2 = false) :
    (p.buildRpcClient env w addr (h ++ ":" ++ Nat.repr n)).2.2.dials
      = w.dials ++ [(addr, ⟨h, (n : Int), p.config.ProxyMaxMessageSize, 1024, 1024⟩)] := by
  have hsz : env.intSize ≤ 64 := by rcases hsize with h1 | h1 <;> omega
  rw [buildRpcClient_dials env p w addr _ h (Nat.repr n) [] hl ha (Split_host_port h n hh),
    strconv.Atoi_repr env.intSize n hsz hn]

/-- C8 (witness): the target "broker1:6650" of the scenario in the specification. -/
theorem C8_host_and_port_are_parsed_witness :
    (emptyServer.buildRpcClient reachableEnv emptyWorld "10.0.0.5:54321"
        ("broker1" ++ ":" ++ Nat.repr 6650)).2.2.dials
      = [("10.0.0.5:54321", ⟨"broker1", 6650, 0, 1024, 1024⟩)] :=
  C8_host_and_port_are_parsed reachableEnv emptyServer emptyWorld "10.0.0.5:54321" "broker1"
    6650 (Or.inr rfl) (by decide) (by decide) rfl rfl

/-- On an initialised registry: two distinct identities without an entry, on an idle lock,
hand-shaking one after the other for the same reachable target: the constructor is called
twice, once for each identity and with the same configuration; afterwards the registry maps
the first identity to the first client made and the second identity to the second client,
the two clients are different, and the entry of the first identity is the one it had before
the second handshake. -/
theorem separate_sessions_on_initialised_registry (env : Env) (p : ProxyServer) (w : World)
    (conn1 conn2 : net.Conn) (connect1 connect2 : pb.CommandConnect)
    (url host portText : String) (rest : List String)
    (m : List (String × Option pnet.PulsarNetClient))
    (hne : conn1.RemoteAddr ≠ conn2.RemoteAddr)
    (hl : p.clientLock = ⟨false, 0⟩) (hm : p.clientManager = some m)
    (ha1 : m.lookup conn1.RemoteAddr = none) (ha2 : m.lookup conn2.RemoteAddr = none)
    (hu1 : connect1.ProxyToBrokerUrl = some url) (hu2 : connect2.ProxyToBrokerUrl = some url)
    (hs : strings.Split url ':' = host :: portText :: rest)
    (hd : env.dialError ⟨host, (strconv.Atoi env.intSize portText).1,
      p.config.ProxyMaxMessageSize, 1024, 1024⟩ = none) :
    ((p.CommandConnect env w conn1 connect1).2.1.CommandConnect env
        (p.CommandConnect env w conn1 connect1).2.2 conn2 connect2).2.2.dials
      = w.dials ++
        [(conn1.RemoteAddr, ⟨host, (strconv.Atoi env.intSize portText).1,
            p.config.ProxyMaxMessageSize, 1024, 1024⟩),
         (conn2.RemoteAddr, ⟨host, (strconv.Atoi env.intSize portText).1,
            p.config.ProxyMaxMessageSize, 1024, 1024⟩)]
    ∧ ((p.CommandConnect env w conn1 connect1).2.1.CommandConnect env
        (p.CommandConnect env w conn1 connect1).2.2 conn2
          connect2).2.1.clientManager.index conn1.RemoteAddr
      = (some ⟨w.nextClient, ⟨host, (strconv.Atoi env.intSize portText).1,
            p.config.ProxyMaxMessageSize, 1024, 1024⟩⟩, true)
    ∧ ((p.CommandConnect env w conn1 connect1).2.1.CommandConnect env
        (p.CommandConnect env w conn1 connect1).2.2 conn2
          connect2).2.1.clientManager.index conn2.RemoteAddr
      = (some ⟨w.nextClient + 1, ⟨host, (strconv.Atoi env.intSize portText).1,
            p.config.ProxyMaxMessageSize, 1024, 1024⟩⟩, true)
    ∧ ((p.CommandConnect env w conn1 connect1).2.1.CommandConnect env
        (p.CommandConnect env w conn1 connect1).2.2 conn2
          connect2).2.1.clientManager.index conn1.RemoteAddr
      ≠ ((p.CommandConnect env w conn1 connect1).2.1.CommandConnect env
        (p.CommandConnect env w conn1 connect1).2.2 conn2
          connect2).2.1.clientManager.index conn2.RemoteAddr
    ∧ ((p.CommandConnect env w conn1 connect1).2.1.CommandConnect env
        (p.CommandConnect env w conn1 connect1).2.2 conn2
          connect2).2.1.clientManager.index conn1.RemoteAddr
      = (p.CommandConnect env w conn1 connect1).2.1.clientManager.index conn1.RemoteAddr := by
  -- first handshake
  have hb1 := buildRpcClient_creates env p w conn1.RemoteAddr url host portText rest m hl hm ha1
    hs hd
  have hc1 := CommandConnect_forwards env p _ w _ conn1 connect1 url
    (some ⟨w.nextClient, ⟨host, (strconv.Atoi env.intSize portText).1,
      p.config.ProxyMaxMessageSize, 1024, 1024⟩⟩) hu1 hb1 (by rw [hl])
    (by simp [ClientMap.index, lookup_assignEntries_self])
  obtain ⟨-, hp1, -, hdials1, hnext1⟩ := hc1
  rcases hr1 : p.CommandConnect env w conn1 connect1 with ⟨o1, p1, w1⟩
  rw [hr1] at hp1 hdials1 hnext1
  simp only at hp1 hdials1 hnext1 ⊢
  -- second handshake
  have hl1 : p1.clientLock = ⟨false, 0⟩ := by rw [hp1]; exact hl
  have hcfg1 : p1.config = p.config := by rw [hp1]
  have hm1 : p1.clientManager = some (assignEntries conn1.RemoteAddr
      (some ⟨w.nextClient, ⟨host, (strconv.Atoi env.intSize portText).1,
        p.config.ProxyMaxMessageSize, 1024, 1024⟩⟩) m) := by rw [hp1]
  have ha2b : (assignEntries conn1.RemoteAddr
      (some ⟨w.nextClient, ⟨host, (strconv.Atoi env.intSize portText).1,
        p.config.ProxyMaxMessageSize, 1024, 1024⟩⟩) m).lookup conn2.RemoteAddr = none := by
    rw [lookup_assignEntries_of_ne _ _ _ _ (fun h => hne h.symm)]
    exact ha2
  have hb2 := buildRpcClient_creates env p1 w1 conn2.RemoteAddr url host portText rest _ hl1 hm1
    ha2b hs (by rw [hcfg1]; exact hd)
  have hc2 := CommandConnect_forwards env p1 _ w1 _ conn2 connect2 url
    (some ⟨w1.nextClient, ⟨host, (strconv.Atoi env.intSize portText).1,
      p1.config.ProxyMaxMessageSize, 1024, 1024⟩⟩) hu2 hb2 (by rw [hl1])
    (by simp [ClientMap.index, lookup_assignEntries_self])
  obtain ⟨-, hp2, -, hdials2, -⟩ := hc2
  rw [hp2, hdials2]
  simp only [hdials1, hnext1, hcfg1, hm1, ClientMap.index, lookup_assignEntries_self,
    lookup_assignEntries_of_ne _ _ _ _ hne, List.append_assoc, List.singleton_append]
  simp

/-- The identities "10.0.0.5:54321" and "10.0.0.6:40000" both hand-shake for "broker1:6650"
on the empty initialised registry: two constructor calls, clients 0 and 1. -/
theorem separate_sessions_on_initialised_registry_example :
    ((emptyServer.CommandConnect reachableEnv emptyWorld inboundConn
        (handshake (some "broker1:6650"))).2.1.CommandConnect reachableEnv
        (emptyServer.CommandConnect reachableEnv emptyWorld inboundConn
          (handshake (some "broker1:6650"))).2.2 otherConn
        (handshake (some "broker1:6650"))).2.2.dials
      = [("10.0.0.5:54321", ⟨"broker1", 6650, 0, 1024, 1024⟩),
         ("10.0.0.6:40000", ⟨"broker1", 6650, 0, 1024, 1024⟩)]
    ∧ ((emptyServer.CommandConnect reachableEnv emptyWorld inboundConn
        (handshake (some "broker1:6650"))).2.1.CommandConnect reachableEnv
        (emptyServer.CommandConnect reachableEnv emptyWorld inboundConn
          (handshake (some "broker1:6650"))).2.2 otherConn
        (handshake (some "broker1:6650"))).2.1.clientManager.index "10.0.0.6:40000"
      = (some ⟨1, ⟨"broker1", 6650, 0, 1024, 1024⟩⟩, true) :=
  have h := separate_sessions_on_initialised_registry reachableEnv emptyServer emptyWorld
    inboundConn otherConn (handshake (some "broker1:6650")) (handshake (some "broker1:6650"))
    "broker1:6650" "broker1" "6650" [] [] (by decide) rfl rfl rfl rfl rfl rfl (by decide) rfl
  ⟨h.1, h.2.2.1⟩

/-! ## C10: two goroutines, one identity -/

/-- A goroutine that runs `buildRpcClient` alone goes through the statements of the
sequential method: it ends with the same server and world, returned, panicked, or waiting
for the lock it cannot get. -/
theorem goroutine_alone_agrees (env : Env) (p : ProxyServer) (w : World) (addr url : String) :
    ∃ k g, System.run env ⟨p, w, [⟨addr, url, .atRLock⟩]⟩ (List.replicate k 0)
        = some ⟨(p.buildRpcClient env w addr url).2.1, (p.buildRpcClient env w addr url).2.2, [g]⟩
      ∧ g.addr = addr ∧ g.brokerUrl = url
      ∧ (match (p.buildRpcClient env w addr url).1 with
          | .ret _ => g.pc = .done
          | .panic e => g.pc = .panicked e
          | .blocked => (g.pc = .atRLock ∨ g.pc = .atLock)
              ∧ g.step env (p.buildRpcClient env w addr url).2.1
                  (p.buildRpcClient env w addr url).2.2 = none) := by
  obtain ⟨cfg, mgr, ⟨wr, rd⟩, ns, sv⟩ := p
  cases wr with
  | true =>
    refine ⟨0, ⟨addr, url, .atRLock⟩, ?_⟩
    simp [ProxyServer.buildRpcClient, sync.RWMutex.RLock, System.run, Goroutine.step]
  | false =>
    cases hex : (ClientMap.index mgr addr).2 with
    | true =>
      refine ⟨4, ⟨addr, url, .done⟩, ?_⟩
      simp [ProxyServer.buildRpcClient, sync.RWMutex.RLock, System.run, Goroutine.step,
        System.step, sync.RWMutex.RUnlock, hex, List.replicate]
    | false =>
      cases rd with
      | succ r =>
        refine ⟨4, ⟨addr, url, .atLock⟩, ?_⟩
        simp [ProxyServer.buildRpcClient, sync.RWMutex.RLock, System.run, Goroutine.step,
          System.step, sync.RWMutex.RUnlock, sync.RWMutex.Lock, hex, List.replicate]
      | zero =>
        cases h0 : (strings.Split url ':')[0]? with
        | none =>
          refine ⟨6, ⟨addr, url, .panicked (.indexOutOfRange 0 (strings.Split url ':').length)⟩, ?_⟩
          simp [ProxyServer.buildRpcClient, sync.RWMutex.RLock, System.run, Goroutine.step,
            System.step, sync.RWMutex.RUnlock, sync.RWMutex.Lock, hex, List.replicate, h0]
        | some host =>
          cases h1 : (strings.Split url ':')[1]? with
          | none =>
            refine ⟨6, ⟨addr, url,
              .panicked (.indexOutOfRange 1 (strings.Split url ':').length)⟩, ?_⟩
            simp [ProxyServer.buildRpcClient, sync.RWMutex.RLock, System.run, Goroutine.step,
              System.step, sync.RWMutex.RUnlock, sync.RWMutex.Lock, hex, List.replicate, h0, h1]
          | some portText =>
            cases mgr with
            | none =>
              refine ⟨8, ⟨addr, url, .panicked .assignNilMap⟩, ?_⟩
              simp [ProxyServer.buildRpcClient, sync.RWMutex.RLock, System.run, Goroutine.step,
                System.step, sync.RWMutex.RUnlock, sync.RWMutex.Lock, hex, List.replicate, h0,
                h1, ClientMap.assign]
            | some m =>
              refine ⟨9, ⟨addr, url, .done⟩, ?_⟩
              simp [ProxyServer.buildRpcClient, sync.RWMutex.RLock, System.run, Goroutine.step,
                System.step, sync.RWMutex.RUnlock, sync.RWMutex.Lock, hex, List.replicate, h0,
                h1, ClientMap.assign, sync.RWMutex.Unlock]

/-- C10 (failing input): two goroutines in `buildRpcClient` for the same identity both
read "absent" under the read lock; nothing is checked again under the write lock, so each
of them dials: the constructor is called twice for that identity and the second client
replaces the first in the registry.  (When the first goroutine ends before the second
starts, the second finds the entry and one call is made.) -/
theorem C10_two_dials_for_one_identity :
    (∃ s, System.run reachableEnv twoGoroutines racySchedule = some s
      ∧ s.world.dialsFor "10.0.0.5:54321" = 2
      ∧ s.world.nextClient = 2
      ∧ s.server.clientManager
          = some [("10.0.0.5:54321", some ⟨1, ⟨"broker1", 6650, 0, 1024, 1024⟩⟩)]
      ∧ s.goroutines.map Goroutine.pc = [.done, .done])
    ∧ (∃ s, System.run reachableEnv twoGoroutines [0, 0, 0, 0, 0, 0, 0, 0, 0, 1, 1, 1, 1]
        = some s
      ∧ s.world.dialsFor "10.0.0.5:54321" = 1
      ∧ s.goroutines.map Goroutine.pc = [.done, .done]) := by
  refine ⟨⟨_, rfl, ?_⟩, ⟨_, rfl, ?_⟩⟩ <;> decide

end PulsarProxy
